import Mathlib

/-!
Verification of the session-scoped incremental-optimization controller of
src/app_pyddsbb_minimize.py (and the spec-modelled parts of the PyDDSBB
library interface it consumes).

Machine reals are modelled as rationals; the numpy generator is modelled as
a seeded stream with an explicit draw counter; the black-box optimizer is a
parameter (an oracle of pure functions), following the design note of the
spec that any optimizer satisfying the five-operation interface is
substitutable.
-/

namespace PyDDSBBApp

/-- State of a seeded pseudorandom generator, as created by
numpy.random.default_rng(seed): the seed plus how many draws were consumed. -/
structure Rng where
  seed : ℕ
  counter : ℕ
deriving DecidableEq, Repr

/-- np.random.default_rng(int(seed)) : a fresh generator, no draws consumed. -/
def default_rng (seed : ℕ) : Rng := ⟨seed, 0⟩

/-- Modelled from the spec: the value of a standard-normal draw of a seeded
generator is an arbitrary pure function of the generator state (distinct
counters give distinct values for a fixed seed, as the real stream does with
probability one). -/
def gaussStream (seed counter : ℕ) : ℚ :=
  ((counter : ℚ) + 1) / ((seed : ℚ) + 1)

/-- rng.normal(0.0, std): one draw; the state advances by one. -/
def Rng.normal (rng : Rng) (std : ℚ) : ℚ × Rng :=
  (std * gaussStream rng.seed rng.counter, ⟨rng.seed, rng.counter + 1⟩)

/-- noisy_eval from src/app_pyddsbb_minimize.py lines 50-54: evaluate the base
function and, only when noise_std > 0, add one normal draw (advancing the
generator). Returns the value together with the generator state after the
call. -/
def noisy_eval (f : ℚ → ℚ) (x : ℚ) (noise_std : ℚ) (rng : Rng) : ℚ × Rng :=
  let v := f x
  if 0 < noise_std then
    let d := rng.normal noise_std
    (v + d.1, d.2)
  else (v, rng)

/-- A sequence of objective evaluations at the given points, threading the
generator state through noisy_eval exactly as repeated calls of the objective
closure do. -/
def evalRun (f : ℚ → ℚ) (noise_std : ℚ) : List ℚ → Rng → List ℚ × Rng
  | [], rng => ([], rng)
  | x :: xs, rng =>
    let h := noisy_eval f x noise_std rng
    let t := evalRun f noise_std xs h.2
    (h.1 :: t.1, t.2)

/-- f_poly from the source: x^3 - 0.5 x^2 + 0.2 x. -/
def f_poly (x : ℚ) : ℚ := x ^ 3 - (1 / 2) * x ^ 2 + (1 / 5) * x

/-- f_piecewise from the source: abs(x - 0.5). -/
def f_piecewise (x : ℚ) : ℚ := |x - 1 / 2|

/-- f_rational from the source: (x^2 + 10 x) / (1 + x^2). -/
def f_rational (x : ℚ) : ℚ := (x ^ 2 + 10 * x) / (1 + x ^ 2)

/-- f_linear from the source: 2 x - 1. -/
def f_linear (x : ℚ) : ℚ := 2 * x - 1

/-- The stop_option dictionary (source lines 122-128). -/
structure StopOption where
  absolute_tolerance : ℚ
  relative_tolerance : ℚ
  minimum_bound : ℚ
  sampling_limit : ℤ
  time_limit : ℚ
deriving DecidableEq, Repr

/-- The cfg dictionary (source lines 138-140): a full snapshot of every
user-adjustable input; two Configurations are equal iff every field is. -/
structure Config where
  kind : String
  x_min : ℚ
  x_max : ℚ
  seed : ℕ
  noise_std : ℚ
  n_init : ℤ
  split_method : String
  variable_selection : String
  multifidelity : Bool
  stop_option : StopOption
  sense : String
deriving DecidableEq, Repr

/-- The arguments of the PyDDSBB.DDSBB constructor (new_solver, source lines
142-150). -/
structure SolverArgs where
  n_init : ℤ
  split_method : String
  variable_selection : String
  multifidelity : Bool
  stop_option : StopOption
  sense : String
deriving DecidableEq, Repr

/-- The DDSBB model built each interaction (source lines 110-120): the
objective closure (base function, noise level, and the generator it captured)
plus the single variable bounds and the sense. -/
structure Problem where
  f : ℚ → ℚ
  noise_std : ℚ
  rng : Rng
  x_min : ℚ
  x_max : ℚ
  sense : String

/-- Modelled from the spec: the opaque PyDDSBB.DDSBB handle (the class itself
is not under src/). It carries its constructor arguments and, as internal
search state preserved across resume, the problem stored at optimize time
(whose objective closure owns its generator) and the current incumbent. -/
structure Solver where
  args : SolverArgs
  stored : Option Problem
  incumbent : Option (ℚ × ℚ)

/-- solver.get_optimizer()[0] : best input of the incumbent. -/
def get_optimizer (s : Solver) : ℚ := (s.incumbent.getD (0, 0)).1

/-- solver.get_optimum() : best objective value of the incumbent. -/
def get_optimum (s : Solver) : ℚ := (s.incumbent.getD (0, 0)).2

/-- Modelled from the spec: the free choices of the black-box optimizer (which
points it samples, which incumbent it reports, whether it raises), as pure
functions of the constructor arguments, the problem, and for resume the new
stopping criteria. Any optimizer satisfying the interface is substitutable. -/
structure OptOracle where
  pts : SolverArgs → Problem → List ℚ
  best : SolverArgs → Problem → ℚ × ℚ
  fail : SolverArgs → Problem → Bool
  rpts : SolverArgs → Problem → StopOption → List ℚ
  rbest : SolverArgs → Problem → StopOption → ℚ × ℚ
  rfail : SolverArgs → Problem → StopOption → Bool

/-- Modelled from the spec: solver.optimize(model) — blocking, may raise
(none); on success stores the model (with its generator advanced by the
evaluations performed) and an incumbent. -/
def doOptimize (O : OptOracle) (s : Solver) (p : Problem) : Option Solver :=
  if O.fail s.args p then none
  else
    let r := evalRun p.f p.noise_std (O.pts s.args p) p.rng
    some { args := s.args
           stored := some { p with rng := r.2 }
           incumbent := some (O.best s.args p) }

/-- Modelled from the spec: solver.resume(new_stop) — takes only the new
stopping criteria; continues from the preserved internal state, evaluating
the stored objective (threading its generator onward), may raise. -/
def doResume (O : OptOracle) (s : Solver) (ns : StopOption) : Option Solver :=
  match s.stored with
  | none => none
  | some p =>
    if O.rfail s.args p ns then none
    else
      let r := evalRun p.f p.noise_std (O.rpts s.args p ns) p.rng
      some { args := s.args
             stored := some { p with rng := r.2 }
             incumbent := some (O.rbest s.args p ns) }

/-- The result dictionary stored in session state (source line 174). -/
structure Result where
  xopt : ℚ
  yopt : ℚ
  elapsed : ℚ
deriving DecidableEq, Repr

/-- The three persistent session-state fields (source lines 131-136). -/
structure SessionState where
  solver : Option Solver
  last_cfg : Option Config
  result : Option Result

/-- Session state at session start: all three fields absent. -/
def init_state : SessionState := ⟨none, none, none⟩

/-- The per-interaction inputs: the widget snapshot, the three triggers, and
the wall-clock duration the optimize call takes this interaction. -/
structure Inputs where
  cfg : Config
  run_btn : Bool
  auto_run : Bool
  resume_btn : Bool
  clock : ℚ

/-- An optimizer invocation issued during one interaction. -/
inductive Event where
  | optimizeCall (s : Solver) (p : Problem)
  | resumeCall (s : Solver) (ns : StopOption)

/-- The new stopping bundle carried by a resume invocation, if the event is
one. -/
def Event.resumeStop : Event → Option StopOption
  | .resumeCall _ ns => some ns
  | _ => none

/-- The generator state the invoked objective starts from: for optimize, the
generator captured by the model being passed; for resume, the generator of
the problem the handle stored at optimize time. -/
def Event.sourceRng : Event → Option Rng
  | .optimizeCall _ p => some p.rng
  | .resumeCall s _ => s.stored.map Problem.rng

/-- Outcome of one interaction: the session state afterwards, the optimizer
invocations issued, and whether an optimizer exception propagated out. -/
structure StepOut where
  state : SessionState
  trace : List Event
  raised : Bool

/-- int(q) in Python: truncation toward zero. -/
def pyInt (q : ℚ) : ℤ := if 0 ≤ q then ⌊q⌋ else ⌈q⌉

/-- extra_sampling = int(max(100, 0.5 * sampling_limit)) (source line 161). -/
def extra_sampling (sl : ℤ) : ℤ := pyInt (max 100 ((1 : ℚ) / 2 * (sl : ℚ)))

/-- new_stop (source lines 162-163): copy of the bundle with only
sampling_limit increased by extra_sampling. -/
def expandedStop (so : StopOption) : StopOption :=
  { so with sampling_limit := so.sampling_limit + extra_sampling so.sampling_limit }

/-- The round of the spec sentence (half away from zero), used to compare the
spec wording against the source. -/
def roundHalfUp (q : ℚ) : ℤ := ⌊q + 1 / 2⌋

/-- The expanded bundle as the spec words it: sampling limit increased by
max(100, round(0.5 x current)). Stated for comparison with expandedStop. -/
def expandedStop_spec (so : StopOption) : StopOption :=
  { so with
      sampling_limit :=
        so.sampling_limit + max 100 (roundHalfUp ((1 : ℚ) / 2 * (so.sampling_limit : ℚ))) }

/-- The constructor arguments new_solver passes, read off the current widget
snapshot (source lines 142-150). -/
def argsOf (cfg : Config) : SolverArgs :=
  { n_init := cfg.n_init
    split_method := cfg.split_method
    variable_selection := cfg.variable_selection
    multifidelity := cfg.multifidelity
    stop_option := cfg.stop_option
    sense := cfg.sense }

/-- new_solver() (source lines 142-150): a fresh handle, no internal state. -/
def new_solver (cfg : Config) : Solver := ⟨argsOf cfg, none, none⟩

/-- The model built on every interaction (source lines 110-120): the objective
closure captures a generator freshly constructed from the current seed. -/
def problemOf (f : ℚ → ℚ) (cfg : Config) : Problem :=
  { f := f
    noise_std := cfg.noise_std
    rng := default_rng cfg.seed
    x_min := cfg.x_min
    x_max := cfg.x_max
    sense := cfg.sense }

/-- The should_run block (source lines 166-174): mark the current snapshot as
last_cfg, invoke optimize on the held handle, and on success store the fresh
result; on an optimizer exception, propagate with last_cfg already updated
and the result untouched. -/
def run_block (O : OptOracle) (inp : Inputs) (p : Problem) (st1 : SessionState) : StepOut :=
  match st1.solver with
  | none => ⟨st1, [], false⟩
  | some s =>
    let st2 : SessionState := { st1 with last_cfg := some inp.cfg }
    match doOptimize O s p with
    | none => ⟨st2, [Event.optimizeCall s p], true⟩
    | some s2 =>
      ⟨{ st2 with
          solver := some s2
          result := some ⟨get_optimizer s2, get_optimum s2, inp.clock⟩ }
        , [Event.optimizeCall s p], false⟩

/-- One interaction of the controller (source lines 110-174): rebuild the
model from the current widgets, then dispatch on the triggers in the fixed
priority order run button, auto-run on change, resume button. -/
def step (O : OptOracle) (f : ℚ → ℚ) (inp : Inputs) (st0 : SessionState) : StepOut :=
  let p := problemOf f inp.cfg
  if inp.run_btn = true then
    run_block O inp p { st0 with solver := some (new_solver inp.cfg) }
  else if inp.auto_run = true ∧ st0.last_cfg ≠ some inp.cfg then
    run_block O inp p { st0 with solver := some (new_solver inp.cfg) }
  else if inp.resume_btn = true then
    match st0.solver with
    | none => ⟨st0, [], false⟩
    | some s =>
      let ns := expandedStop inp.cfg.stop_option
      match doResume O s ns with
      | none => ⟨st0, [Event.resumeCall s ns], true⟩
      | some s2 => ⟨{ st0 with solver := some s2 }, [Event.resumeCall s ns], false⟩
  else ⟨st0, [], false⟩

/-- The handle doOptimize produces on success: same constructor arguments,
stored problem with the generator advanced by the evaluations, incumbent as
reported by the optimizer. -/
def optSuccessor (O : OptOracle) (s : Solver) (p : Problem) : Solver :=
  { args := s.args
    stored := some { p with rng := (evalRun p.f p.noise_std (O.pts s.args p) p.rng).2 }
    incumbent := some (O.best s.args p) }

/-- A concrete substitutable optimizer used to instantiate the theorems: it
samples the single point 0 and reports the left domain endpoint as incumbent;
it never raises. -/
def O0 : OptOracle :=
  { pts := fun _ _ => [0]
    best := fun _ p => (p.x_min, p.f p.x_min)
    fail := fun _ _ => false
    rpts := fun _ _ _ => [0]
    rbest := fun _ p _ => (p.x_min, p.f p.x_min)
    rfail := fun _ _ _ => false }

/-- The default stopping bundle of the sidebar (source lines 98-102). -/
def stop0 : StopOption := ⟨1 / 1000, 1 / 1000, 1 / 100, 800, 20⟩

/-- A concrete Configuration: the linear test function on [-1, 1], seed 42,
no noise, default solver settings. -/
def cfg0 : Config :=
  ⟨"Linear-ish (2x - 1)", -1, 1, 42, 0, 12, "equal_bisection", "longest_side",
    false, stop0, "minimize"⟩

/-- stop0 with sampling_limit 203 (an odd value above 200). -/
def stop203 : StopOption := ⟨1 / 1000, 1 / 1000, 1 / 100, 203, 20⟩

/-- cfg0 with the 203 sampling limit. -/
def cfg203 : Config := { cfg0 with stop_option := stop203 }

/-- cfg0 with positive observation noise. -/
def cfgN : Config := { cfg0 with noise_std := 1 / 10 }

/-- An interaction pressing Run with cfg0; the optimize call takes 3 s. -/
def inpRun0 : Inputs := ⟨cfg0, true, false, false, 3⟩

/-- Session state after that Run interaction from a fresh session. -/
def st_after_run : SessionState := (step O0 f_linear inpRun0 init_state).state

/-- The handle held after that Run interaction. -/
def sAfterRun : Solver := st_after_run.solver.getD (new_solver cfg0)

/-- An interaction pressing Resume with cfg0 unchanged; clock 5 s. -/
def inpRes1 : Inputs := ⟨cfg0, false, false, true, 5⟩

/-- Pressing Run with the 203 sampling limit. -/
def inpRun203 : Inputs := ⟨cfg203, true, false, false, 1⟩

/-- Session state after that Run. -/
def stAfter203 : SessionState := (step O0 f_linear inpRun203 init_state).state

/-- Pressing Resume with the 203 sampling limit. -/
def inpRes203 : Inputs := ⟨cfg203, false, false, true, 2⟩

/-- The handle held after the 203 Run. -/
def s203 : Solver := stAfter203.solver.getD (new_solver cfg203)

/-- Pressing Run with the noisy configuration. -/
def inpRunN : Inputs := ⟨cfgN, true, false, false, 1⟩

/-- Session state after that noisy Run. -/
def stAfterN : SessionState := (step O0 f_linear inpRunN init_state).state

/-- Pressing Resume with the noisy configuration. -/
def inpResN : Inputs := ⟨cfgN, false, false, true, 2⟩

/-- The handle held after the noisy Run interaction. -/
def sN : Solver := stAfterN.solver.getD (new_solver cfgN)

/-- The problem that handle stored at optimize time. -/
def pN : Problem := sN.stored.getD (problemOf f_linear cfgN)

/-- An interaction where only auto-run fires: no button, auto-run on,
widgets moved to the 203 snapshot. -/
def inpAuto : Inputs := ⟨cfg203, false, true, false, 7⟩

/-- First of two consecutive explicit runs (clock 1 s). -/
def inpC9a : Inputs := ⟨cfg0, true, false, false, 1⟩

/-- Second of two consecutive explicit runs (clock 2 s). -/
def inpC9b : Inputs := ⟨cfg0, true, false, false, 2⟩

/-- A Resume pressed at session start, before any run. -/
def inpRes0 : Inputs := ⟨cfg0, false, false, true, 9⟩

/-- Problem Descriptor construction error (spec section 4.2). -/
inductive PDError where
  | InvalidDomain
deriving DecidableEq, Repr

/-- A machine float used as a domain bound: its value, plus a finiteness flag
(infinities and nan are non-finite). -/
structure Bound where
  val : ℚ
  finite : Bool
deriving DecidableEq, Repr

/-- Modelled from the spec: PyDDSBB.DDSBBModel.Problem.add_variable (the
DDSBBModel code is not under src/) validates that the lower bound is finite
and strictly below the finite upper bound, and fails with an InvalidDomain
error when the bounds are non-finite or inverted. -/
def add_variable (lb ub : Bound) : Except PDError (ℚ × ℚ) :=
  if lb.finite = true ∧ ub.finite = true ∧ lb.val < ub.val then
    Except.ok (lb.val, ub.val)
  else Except.error PDError.InvalidDomain

/-- Descriptor construction followed by an explicit run of the controller:
when construction fails, the error is returned before any interaction, so no
optimizer invocation is attempted. -/
def build_and_optimize (O : OptOracle) (f : ℚ → ℚ) (cfg : Config) (lb ub : Bound) :
    Except PDError (List Event) :=
  match add_variable lb ub with
  | Except.error e => Except.error e
  | Except.ok _ =>
      Except.ok (step O f ⟨cfg, true, false, false, 0⟩ init_state).trace

/-! Dispatch lemmas for the controller step. -/

lemma run_block_of_fail (O : OptOracle) (inp : Inputs) (p : Problem)
    (st1 : SessionState) (s : Solver) (hs : st1.solver = some s)
    (hf : O.fail s.args p = true) :
    run_block O inp p st1 =
      ⟨{ st1 with last_cfg := some inp.cfg }, [Event.optimizeCall s p], true⟩ := by
  simp [run_block, hs, doOptimize, hf]

lemma run_block_of_ok (O : OptOracle) (inp : Inputs) (p : Problem)
    (st1 : SessionState) (s : Solver) (hs : st1.solver = some s)
    (hf : O.fail s.args p = false) :
    run_block O inp p st1 =
      ⟨{ st1 with
          last_cfg := some inp.cfg
          solver := some (optSuccessor O s p)
          result := some ⟨(O.best s.args p).1, (O.best s.args p).2, inp.clock⟩ },
        [Event.optimizeCall s p], false⟩ := by
  simp [run_block, hs, doOptimize, hf, optSuccessor, get_optimizer, get_optimum]

lemma step_of_run (O : OptOracle) (f : ℚ → ℚ) (inp : Inputs) (st0 : SessionState)
    (h : inp.run_btn = true) :
    step O f inp st0 =
      run_block O inp (problemOf f inp.cfg)
        { st0 with solver := some (new_solver inp.cfg) } := by
  simp [step, h]

lemma step_of_auto (O : OptOracle) (f : ℚ → ℚ) (inp : Inputs) (st0 : SessionState)
    (h0 : inp.run_btn = false) (h1 : inp.auto_run = true)
    (h2 : st0.last_cfg ≠ some inp.cfg) :
    step O f inp st0 =
      run_block O inp (problemOf f inp.cfg)
        { st0 with solver := some (new_solver inp.cfg) } := by
  simp [step, h0, h1, h2]

lemma step_of_trigger (O : OptOracle) (f : ℚ → ℚ) (inp : Inputs) (st0 : SessionState)
    (h : inp.run_btn = true ∨ (inp.auto_run = true ∧ st0.last_cfg ≠ some inp.cfg)) :
    step O f inp st0 =
      run_block O inp (problemOf f inp.cfg)
        { st0 with solver := some (new_solver inp.cfg) } := by
  rcases h with h | ⟨h1, h2⟩
  · exact step_of_run O f inp st0 h
  · rcases hb : inp.run_btn with _ | _
    · exact step_of_auto O f inp st0 hb h1 h2
    · exact step_of_run O f inp st0 hb

lemma step_of_resume (O : OptOracle) (f : ℚ → ℚ) (inp : Inputs) (st0 : SessionState)
    (s : Solver) (h0 : inp.run_btn = false)
    (h1 : inp.auto_run = false ∨ st0.last_cfg = some inp.cfg)
    (h2 : inp.resume_btn = true) (hs : st0.solver = some s) :
    step O f inp st0 =
      match doResume O s (expandedStop inp.cfg.stop_option) with
      | none => ⟨st0, [Event.resumeCall s (expandedStop inp.cfg.stop_option)], true⟩
      | some s2 =>
          ⟨{ st0 with solver := some s2 },
            [Event.resumeCall s (expandedStop inp.cfg.stop_option)], false⟩ := by
  rcases h1 with h1 | h1 <;> simp [step, h0, h1, h2, hs]

lemma step_of_resume_none (O : OptOracle) (f : ℚ → ℚ) (inp : Inputs) (st0 : SessionState)
    (h0 : inp.run_btn = false)
    (h1 : inp.auto_run = false ∨ st0.last_cfg = some inp.cfg)
    (h2 : inp.resume_btn = true) (hs : st0.solver = none) :
    step O f inp st0 = ⟨st0, [], false⟩ := by
  rcases h1 with h1 | h1 <;> simp [step, h0, h1, h2, hs]

lemma step_of_no_trigger (O : OptOracle) (f : ℚ → ℚ) (inp : Inputs) (st0 : SessionState)
    (h0 : inp.run_btn = false)
    (h1 : inp.auto_run = false ∨ st0.last_cfg = some inp.cfg)
    (h2 : inp.resume_btn = false) :
    step O f inp st0 = ⟨st0, [], false⟩ := by
  rcases h1 with h1 | h1 <;> simp [step, h0, h1, h2]

@[simp] lemma new_solver_args (cfg : Config) : (new_solver cfg).args = argsOf cfg := rfl

lemma evalRun_rng_of_pos (f : ℚ → ℚ) (noise_std : ℚ) (h : 0 < noise_std)
    (xs : List ℚ) : ∀ rng : Rng,
      (evalRun f noise_std xs rng).2 = ⟨rng.seed, rng.counter + xs.length⟩ := by
  induction xs with
  | nil => intro rng; simp [evalRun]
  | cons x ys ih =>
    intro rng
    simp only [evalRun, noisy_eval, if_pos h, Rng.normal, ih, List.length_cons]
    exact congrArg (Rng.mk rng.seed) (by omega)

lemma floor_max (a b : ℚ) : ⌊max a b⌋ = max ⌊a⌋ ⌊b⌋ := by
  rcases le_total a b with h | h
  · rw [max_eq_right h, max_eq_right (Int.floor_le_floor h)]
  · rw [max_eq_left h, max_eq_left (Int.floor_le_floor h)]

lemma extra_sampling_eq (sl : ℤ) :
    extra_sampling sl = max 100 ⌊(sl : ℚ) / 2⌋ := by
  have heq : (1 : ℚ) / 2 * (sl : ℚ) = (sl : ℚ) / 2 := by ring
  have h0 : (0 : ℚ) ≤ max 100 ((1 : ℚ) / 2 * (sl : ℚ)) :=
    le_trans (by norm_num) (le_max_left _ _)
  rw [extra_sampling, pyInt, if_pos h0, heq, floor_max]
  norm_num

lemma extra_sampling_of_le (sl : ℤ) (hle : sl ≤ 200) :
    extra_sampling sl = 100 := by
  rw [extra_sampling_eq sl, max_eq_left]
  have hq : (sl : ℚ) / 2 ≤ 100 := by
    have : (sl : ℚ) ≤ 200 := by exact_mod_cast hle
    linarith
  calc ⌊(sl : ℚ) / 2⌋ ≤ ⌊(100 : ℚ)⌋ := Int.floor_le_floor hq
    _ = 100 := by norm_num

lemma extra_sampling_of_gt (sl : ℤ) (hgt : 200 < sl) :
    extra_sampling sl = ⌊(sl : ℚ) / 2⌋ ∧ sl - 1 ≤ 2 * ⌊(sl : ℚ) / 2⌋ := by
  have h100 : (100 : ℤ) ≤ ⌊(sl : ℚ) / 2⌋ := by
    rw [Int.le_floor]
    have : (200 : ℚ) < (sl : ℚ) := by exact_mod_cast hgt
    push_cast
    linarith
  constructor
  · rw [extra_sampling_eq sl, max_eq_right h100]
  · have hfl : (sl : ℚ) / 2 - 1 < (⌊(sl : ℚ) / 2⌋ : ℚ) := Int.sub_one_lt_floor _
    have h2 : (sl : ℚ) - 2 < 2 * (⌊(sl : ℚ) / 2⌋ : ℚ) := by linarith
    have h3 : (sl : ℤ) - 2 < 2 * ⌊(sl : ℚ) / 2⌋ := by exact_mod_cast h2
    omega

lemma extra_sampling_ge (sl : ℤ) : 100 ≤ extra_sampling sl := by
  rw [extra_sampling_eq sl]
  exact le_max_left _ _

/-! Claim theorems. -/

/-- C3: whenever a run is triggered (explicit run, or auto-run on a changed
configuration), the Session invokes optimize on the freshly held handle with
the current problem; on success it stores the best input, best objective
value and the recorded wall-clock duration as the new Result, unconditionally
overwriting the previous one; if the optimizer raises, the exception
propagates and the previously stored Result is untouched. -/
theorem C3_run_operation (O : OptOracle) (f : ℚ → ℚ) (inp : Inputs)
    (st : SessionState)
    (htrig : inp.run_btn = true ∨ (inp.auto_run = true ∧ st.last_cfg ≠ some inp.cfg)) :
    (step O f inp st).trace =
      [Event.optimizeCall (new_solver inp.cfg) (problemOf f inp.cfg)] ∧
    (O.fail (argsOf inp.cfg) (problemOf f inp.cfg) = true →
      (step O f inp st).raised = true ∧
      (step O f inp st).state.result = st.result) ∧
    (O.fail (argsOf inp.cfg) (problemOf f inp.cfg) = false →
      (step O f inp st).raised = false ∧
      (step O f inp st).state.result =
        some ⟨(O.best (argsOf inp.cfg) (problemOf f inp.cfg)).1,
              (O.best (argsOf inp.cfg) (problemOf f inp.cfg)).2, inp.clock⟩) := by
  rw [step_of_trigger O f inp st htrig]
  rcases hf : O.fail (argsOf inp.cfg) (problemOf f inp.cfg) with _ | _
  · rw [run_block_of_ok O inp (problemOf f inp.cfg) _ (new_solver inp.cfg) rfl hf]
    exact ⟨rfl, fun hc => by simp [hf] at hc, fun _ => ⟨rfl, rfl⟩⟩
  · rw [run_block_of_fail O inp (problemOf f inp.cfg) _ (new_solver inp.cfg) rfl hf]
    exact ⟨rfl, fun _ => ⟨rfl, rfl⟩, fun hc => by simp [hf] at hc⟩

/-- C3 witness: an explicit run with the concrete optimizer stores the fresh
Result (left endpoint, its value, the recorded 3 s). -/
theorem C3_run_operation_witness :
    (step O0 f_linear inpRun0 init_state).state.result = some ⟨-1, -3, 3⟩ ∧
    (step O0 f_linear inpRun0 init_state).raised = false := by
  have h := (C3_run_operation O0 f_linear inpRun0 init_state (Or.inl rfl)).2.2 rfl
  refine ⟨?_, h.1⟩
  rw [h.2]
  norm_num [O0, problemOf, inpRun0, cfg0, f_linear]

/-- C4: with auto-run enabled, whenever the current Configuration differs
from the stored one (field-wise dictionary equality, including the case of no
stored Configuration), the interaction builds a fresh handle from the current
Configuration and the only optimizer invocation of the interaction is an
optimize call on that fresh handle; the held handle afterwards carries the
current constructor arguments and the current Configuration is marked as the
stored one. -/
theorem C4_auto_run_replaces (O : OptOracle) (f : ℚ → ℚ) (inp : Inputs)
    (st : SessionState)
    (hauto : inp.auto_run = true) (hdiff : st.last_cfg ≠ some inp.cfg) :
    (step O f inp st).trace =
      [Event.optimizeCall (new_solver inp.cfg) (problemOf f inp.cfg)] ∧
    ((step O f inp st).state.solver).map Solver.args = some (argsOf inp.cfg) ∧
    (step O f inp st).state.last_cfg = some inp.cfg := by
  rw [step_of_trigger O f inp st (Or.inr ⟨hauto, hdiff⟩)]
  rcases hf : O.fail (argsOf inp.cfg) (problemOf f inp.cfg) with _ | _
  · rw [run_block_of_ok O inp (problemOf f inp.cfg) _ (new_solver inp.cfg) rfl hf]
    exact ⟨rfl, rfl, rfl⟩
  · rw [run_block_of_fail O inp (problemOf f inp.cfg) _ (new_solver inp.cfg) rfl hf]
    exact ⟨rfl, rfl, rfl⟩

/-- C4 witness: moving the widgets to a different snapshot with auto-run on
(no buttons pressed) rebuilds and runs a fresh handle from the new snapshot. -/
theorem C4_auto_run_replaces_witness :
    (step O0 f_linear inpAuto st_after_run).trace =
      [Event.optimizeCall (new_solver cfg203) (problemOf f_linear cfg203)] ∧
    (step O0 f_linear inpAuto st_after_run).state.last_cfg = some cfg203 := by
  have hdiff : st_after_run.last_cfg ≠ some inpAuto.cfg := by
    rw [show st_after_run.last_cfg = some cfg0 from rfl]
    intro h
    have h2 := congrArg (fun oc : Option Config =>
      (oc.getD cfg0).stop_option.sampling_limit) h
    simp [cfg0, cfg203, stop0, stop203, inpAuto] at h2
  have h := C4_auto_run_replaces O0 f_linear inpAuto st_after_run rfl hdiff
  exact ⟨h.1, h.2.2⟩

/-- C5: an explicit run always replaces the held handle with one freshly
constructed from the current Configuration, marks that Configuration as
current, and (when the optimizer does not raise) immediately performs one run
storing a fresh Result — with no hypothesis comparing the current
Configuration to the stored one, so also when they are equal. -/
theorem C5_explicit_run (O : OptOracle) (f : ℚ → ℚ) (inp : Inputs)
    (st : SessionState)
    (hrun : inp.run_btn = true)
    (hok : O.fail (argsOf inp.cfg) (problemOf f inp.cfg) = false) :
    (step O f inp st).trace =
      [Event.optimizeCall (new_solver inp.cfg) (problemOf f inp.cfg)] ∧
    (step O f inp st).state.solver =
      some (optSuccessor O (new_solver inp.cfg) (problemOf f inp.cfg)) ∧
    (step O f inp st).state.last_cfg = some inp.cfg ∧
    (step O f inp st).state.result =
      some ⟨(O.best (argsOf inp.cfg) (problemOf f inp.cfg)).1,
            (O.best (argsOf inp.cfg) (problemOf f inp.cfg)).2, inp.clock⟩ ∧
    (step O f inp st).raised = false := by
  rw [step_of_run O f inp st hrun,
    run_block_of_ok O inp (problemOf f inp.cfg) _ (new_solver inp.cfg) rfl hok]
  exact ⟨rfl, rfl, rfl, rfl, rfl⟩

/-- C5 witness: pressing Run again with the Configuration unchanged (it
equals the stored one) still replaces the handle and produces a fresh
Result. -/
theorem C5_explicit_run_witness :
    st_after_run.last_cfg = some inpRun0.cfg ∧
    (step O0 f_linear inpRun0 st_after_run).state.result = some ⟨-1, -3, 3⟩ ∧
    (step O0 f_linear inpRun0 st_after_run).state.solver =
      some (optSuccessor O0 (new_solver cfg0) (problemOf f_linear cfg0)) := by
  have h := C5_explicit_run O0 f_linear inpRun0 st_after_run rfl rfl
  refine ⟨rfl, ?_, h.2.1⟩
  rw [h.2.2.2.1]
  norm_num [O0, problemOf, inpRun0, cfg0, f_linear]

/-- C6: a Resume request with no held handle (and no higher-priority trigger
firing) is a no-op: the three session fields are unchanged and no optimizer
invocation occurs. -/
theorem C6_resume_without_handle (O : OptOracle) (f : ℚ → ℚ) (inp : Inputs)
    (st : SessionState)
    (hrun : inp.run_btn = false)
    (hpri : inp.auto_run = false ∨ st.last_cfg = some inp.cfg)
    (hres : inp.resume_btn = true)
    (hs : st.solver = none) :
    (step O f inp st).state = st ∧ (step O f inp st).trace = [] ∧
    (step O f inp st).raised = false := by
  rw [step_of_resume_none O f inp st hrun hpri hres hs]
  exact ⟨rfl, rfl, rfl⟩

/-- C6 witness: pressing Resume at session start leaves the empty session
state untouched and issues no invocation. -/
theorem C6_resume_without_handle_witness :
    (step O0 f_linear inpRes0 init_state).state = init_state ∧
    (step O0 f_linear inpRes0 init_state).trace = [] :=
  ⟨(C6_resume_without_handle O0 f_linear inpRes0 init_state rfl (Or.inl rfl) rfl rfl).1,
   (C6_resume_without_handle O0 f_linear inpRes0 init_state rfl (Or.inl rfl) rfl rfl).2.1⟩

/-- C7: Problem Descriptor construction validates finite lower < finite upper
and fails with InvalidDomain on non-finite or inverted bounds, in which case
no optimizer call is attempted (the pipeline returns the error before any
interaction runs). -/
theorem C7_domain_validation (lb ub : Bound) :
    (¬ (lb.finite = true ∧ ub.finite = true ∧ lb.val < ub.val) →
      add_variable lb ub = Except.error PDError.InvalidDomain ∧
      ∀ (O : OptOracle) (f : ℚ → ℚ) (cfg : Config),
        build_and_optimize O f cfg lb ub = Except.error PDError.InvalidDomain) ∧
    (lb.finite = true ∧ ub.finite = true ∧ lb.val < ub.val →
      add_variable lb ub = Except.ok (lb.val, ub.val)) := by
  constructor
  · intro hbad
    have hav : add_variable lb ub = Except.error PDError.InvalidDomain := by
      rw [add_variable, if_neg hbad]
    refine ⟨hav, fun O f cfg => ?_⟩
    rw [build_and_optimize, hav]
  · intro hgood
    rw [add_variable, if_pos hgood]

/-- C7 witness: inverted finite bounds are rejected with InvalidDomain and
valid bounds are accepted. -/
theorem C7_domain_validation_witness :
    add_variable ⟨1, true⟩ ⟨0, true⟩ = Except.error PDError.InvalidDomain ∧
    build_and_optimize O0 f_linear cfg0 ⟨0, false⟩ ⟨1, true⟩ =
      Except.error PDError.InvalidDomain ∧
    add_variable ⟨0, true⟩ ⟨1, true⟩ = Except.ok (0, 1) :=
  ⟨((C7_domain_validation ⟨1, true⟩ ⟨0, true⟩).1 (by norm_num)).1,
   ((C7_domain_validation ⟨0, false⟩ ⟨1, true⟩).1 (by simp)).2 O0 f_linear cfg0,
   (C7_domain_validation ⟨0, true⟩ ⟨1, true⟩).2 (by norm_num)⟩

/-- C8: with noise_std = 0 the Objective Adapter returns exactly the base
function applied to the input and leaves the generator state untouched, for
every input and across arbitrarily many repeated calls. -/
theorem C8_zero_noise (f : ℚ → ℚ) (x : ℚ) (rng : Rng) (xs : List ℚ) :
    noisy_eval f x 0 rng = (f x, rng) ∧
    evalRun f 0 xs rng = (xs.map f, rng) := by
  constructor
  · simp [noisy_eval]
  · induction xs generalizing rng with
    | nil => simp [evalRun]
    | cons y ys ih => simp [evalRun, noisy_eval, ih]

/-- C1 counterexample: a concrete Run followed by a Resume with the handle
held. The resume invocation is issued with the expanded bundle, yet the
stored Result is left exactly as before — its elapsed field still carries the
first run's 3 s although this interaction's optimize duration is 5 s, so no
freshly computed Result replaced it, contradicting the claim that the Result
is updated identically to run. -/
theorem C1_counterexample :
    (step O0 f_linear inpRes1 st_after_run).trace.map Event.resumeStop =
      [some (expandedStop stop0)] ∧
    (step O0 f_linear inpRes1 st_after_run).state.result = st_after_run.result ∧
    st_after_run.result.map Result.elapsed = some 3 ∧
    inpRes1.clock = 5 ∧
    (3 : ℚ) ≠ 5 :=
  ⟨rfl, rfl, rfl, rfl, by norm_num⟩

/-- C1 amended: for every interaction in which Resume is pressed while a
Solver Handle is held (and no higher-priority trigger fires), the Session
invokes the held handle's resume with the expanded stopping-criteria bundle,
but — unlike run — it does not recompute or replace the stored Result, and
the stored Configuration is also unchanged. -/
theorem C1_amended_resume (O : OptOracle) (f : ℚ → ℚ) (inp : Inputs)
    (st : SessionState) (s : Solver)
    (hrun : inp.run_btn = false)
    (hpri : inp.auto_run = false ∨ st.last_cfg = some inp.cfg)
    (hres : inp.resume_btn = true)
    (hs : st.solver = some s) :
    (step O f inp st).trace =
      [Event.resumeCall s (expandedStop inp.cfg.stop_option)] ∧
    (step O f inp st).state.result = st.result ∧
    (step O f inp st).state.last_cfg = st.last_cfg := by
  rw [step_of_resume O f inp st s hrun hpri hres hs]
  rcases hr : doResume O s (expandedStop inp.cfg.stop_option) with _ | s2 <;> simp [hr]

/-- C1 amended witness: the concrete Resume interaction issues the resume
call with the expanded bundle and leaves the Result untouched. -/
theorem C1_amended_resume_witness :
    (step O0 f_linear inpRes1 st_after_run).trace =
      [Event.resumeCall sAfterRun (expandedStop stop0)] ∧
    (step O0 f_linear inpRes1 st_after_run).state.result = st_after_run.result :=
  ⟨(C1_amended_resume O0 f_linear inpRes1 st_after_run sAfterRun rfl (Or.inr rfl) rfl rfl).1,
   (C1_amended_resume O0 f_linear inpRes1 st_after_run sAfterRun rfl (Or.inr rfl) rfl rfl).2.1⟩

/-- C2 counterexample: at the reachable sampling limit 203 the code passes a
bundle with limit 203 + int(101.5) = 304, while the claimed formula with
round gives 203 + round(101.5) = 305. -/
theorem C2_counterexample :
    (step O0 f_linear inpRes203 stAfter203).trace.map Event.resumeStop =
      [some (expandedStop stop203)] ∧
    (expandedStop stop203).sampling_limit = 304 ∧
    (expandedStop_spec stop203).sampling_limit = 305 ∧
    (304 : ℤ) ≠ 305 := by
  refine ⟨rfl, ?_, ?_, by norm_num⟩
  · norm_num [expandedStop, stop203, extra_sampling, pyInt]
  · norm_num [expandedStop_spec, stop203, roundHalfUp]

/-- C2 amended: when Resume fires with a held handle, the bundle passed to
resume has its sampling-limit field equal to the current limit plus
max(100, floor(0.5 x current)) — truncation, not rounding — with every other
field unchanged; hence the new limit is never reduced: it equals old + 100
for old at most 200, and is at least 1.5 x old - 0.5 for larger values. -/
theorem C2_amended_budget (O : OptOracle) (f : ℚ → ℚ) (inp : Inputs)
    (st : SessionState) (s : Solver)
    (hrun : inp.run_btn = false)
    (hpri : inp.auto_run = false ∨ st.last_cfg = some inp.cfg)
    (hres : inp.resume_btn = true)
    (hs : st.solver = some s)
    (_hpos : 0 < inp.cfg.stop_option.sampling_limit) :
    (step O f inp st).trace.map Event.resumeStop =
      [some (expandedStop inp.cfg.stop_option)] ∧
    (expandedStop inp.cfg.stop_option).sampling_limit =
      inp.cfg.stop_option.sampling_limit +
        max 100 ⌊(inp.cfg.stop_option.sampling_limit : ℚ) / 2⌋ ∧
    (inp.cfg.stop_option.sampling_limit ≤ 200 →
      (expandedStop inp.cfg.stop_option).sampling_limit =
        inp.cfg.stop_option.sampling_limit + 100) ∧
    (200 < inp.cfg.stop_option.sampling_limit →
      3 * inp.cfg.stop_option.sampling_limit - 1 ≤
        2 * (expandedStop inp.cfg.stop_option).sampling_limit) ∧
    inp.cfg.stop_option.sampling_limit + 100 ≤
      (expandedStop inp.cfg.stop_option).sampling_limit ∧
    (expandedStop inp.cfg.stop_option).absolute_tolerance =
      inp.cfg.stop_option.absolute_tolerance ∧
    (expandedStop inp.cfg.stop_option).relative_tolerance =
      inp.cfg.stop_option.relative_tolerance ∧
    (expandedStop inp.cfg.stop_option).minimum_bound =
      inp.cfg.stop_option.minimum_bound ∧
    (expandedStop inp.cfg.stop_option).time_limit =
      inp.cfg.stop_option.time_limit := by
  have hbase : (expandedStop inp.cfg.stop_option).sampling_limit =
      inp.cfg.stop_option.sampling_limit +
        extra_sampling inp.cfg.stop_option.sampling_limit := rfl
  refine ⟨?_, ?_, ?_, ?_, ?_, rfl, rfl, rfl, rfl⟩
  · rw [step_of_resume O f inp st s hrun hpri hres hs]
    rcases hr : doResume O s (expandedStop inp.cfg.stop_option) with _ | s2 <;>
      simp [hr, Event.resumeStop]
  · rw [hbase, extra_sampling_eq]
  · intro hle
    rw [hbase, extra_sampling_of_le _ hle]
  · intro hgt
    obtain ⟨he, hb⟩ := extra_sampling_of_gt _ hgt
    rw [hbase, he]
    omega
  · have := extra_sampling_ge inp.cfg.stop_option.sampling_limit
    omega

/-- C2 amended witness: the concrete Resume at sampling limit 203 passes the
expanded bundle, whose limit satisfies the growth bounds. -/
theorem C2_amended_budget_witness :
    (step O0 f_linear inpRes203 stAfter203).trace.map Event.resumeStop =
      [some (expandedStop stop203)] ∧
    3 * (203 : ℤ) - 1 ≤ 2 * (expandedStop stop203).sampling_limit ∧
    (203 : ℤ) + 100 ≤ (expandedStop stop203).sampling_limit := by
  have h := C2_amended_budget O0 f_linear inpRes203 stAfter203 s203 rfl (Or.inr rfl)
    rfl rfl (by norm_num [inpRes203, cfg203, stop203])
  exact ⟨h.1, h.2.2.2.1 (by norm_num [inpRes203, cfg203, stop203]), h.2.2.2.2.1⟩

/-- C9 counterexample: two consecutive explicit runs from the identical
noise-free, fixed-seed Configuration cfg0. The stored Results agree on best
input and value but differ in the elapsed field (wall-clock 1 s versus 2 s),
so the Results are not bit-identical in every field. -/
theorem C9_counterexample :
    cfg0.noise_std = 0 ∧
    (step O0 f_linear inpC9a init_state).state.result.map Result.elapsed = some 1 ∧
    (step O0 f_linear inpC9b
        (step O0 f_linear inpC9a init_state).state).state.result.map
      Result.elapsed = some 2 ∧
    (step O0 f_linear inpC9a init_state).state.result ≠
      (step O0 f_linear inpC9b
        (step O0 f_linear inpC9a init_state).state).state.result := by
  have e1 : (step O0 f_linear inpC9a init_state).state.result.map Result.elapsed =
      some 1 := rfl
  have e2 : (step O0 f_linear inpC9b
      (step O0 f_linear inpC9a init_state).state).state.result.map
        Result.elapsed = some 2 := rfl
  refine ⟨rfl, e1, e2, fun h => ?_⟩
  rw [h, e2] at e1
  have := Option.some.inj e1
  norm_num at this

/-- C9 amended: with noise_std = 0 and a fixed seed, two consecutive explicit
runs from an identical Configuration store Results that are identical in best
input and best objective value; the elapsed field records each interaction's
own wall-clock duration and is therefore not required to coincide. -/
theorem C9_amended_determinism (O : OptOracle) (f : ℚ → ℚ) (cfg : Config)
    (st : SessionState) (c1 c2 : ℚ)
    (_hnoise : cfg.noise_std = 0)
    (hok : O.fail (argsOf cfg) (problemOf f cfg) = false) :
    (step O f ⟨cfg, true, false, false, c1⟩ st).state.result =
      some ⟨(O.best (argsOf cfg) (problemOf f cfg)).1,
            (O.best (argsOf cfg) (problemOf f cfg)).2, c1⟩ ∧
    (step O f ⟨cfg, true, false, false, c2⟩
        (step O f ⟨cfg, true, false, false, c1⟩ st).state).state.result =
      some ⟨(O.best (argsOf cfg) (problemOf f cfg)).1,
            (O.best (argsOf cfg) (problemOf f cfg)).2, c2⟩ ∧
    (step O f ⟨cfg, true, false, false, c1⟩ st).state.result.map Result.xopt =
      (step O f ⟨cfg, true, false, false, c2⟩
        (step O f ⟨cfg, true, false, false, c1⟩ st).state).state.result.map
        Result.xopt ∧
    (step O f ⟨cfg, true, false, false, c1⟩ st).state.result.map Result.yopt =
      (step O f ⟨cfg, true, false, false, c2⟩
        (step O f ⟨cfg, true, false, false, c1⟩ st).state).state.result.map
        Result.yopt := by
  have h1 : (step O f ⟨cfg, true, false, false, c1⟩ st).state.result =
      some ⟨(O.best (argsOf cfg) (problemOf f cfg)).1,
            (O.best (argsOf cfg) (problemOf f cfg)).2, c1⟩ := by
    rw [step_of_run O f ⟨cfg, true, false, false, c1⟩ st rfl,
      run_block_of_ok O ⟨cfg, true, false, false, c1⟩ (problemOf f cfg) _
        (new_solver cfg) rfl hok]
    rfl
  have h2 : (step O f ⟨cfg, true, false, false, c2⟩
      (step O f ⟨cfg, true, false, false, c1⟩ st).state).state.result =
      some ⟨(O.best (argsOf cfg) (problemOf f cfg)).1,
            (O.best (argsOf cfg) (problemOf f cfg)).2, c2⟩ := by
    rw [step_of_run O f ⟨cfg, true, false, false, c2⟩ _ rfl,
      run_block_of_ok O ⟨cfg, true, false, false, c2⟩ (problemOf f cfg) _
        (new_solver cfg) rfl hok]
    rfl
  refine ⟨h1, h2, ?_, ?_⟩ <;> rw [h1, h2] <;> rfl

/-- C9 amended witness: the two concrete runs store best input -1 and best
value -3 both times, with their own elapsed values. -/
theorem C9_amended_determinism_witness :
    (step O0 f_linear ⟨cfg0, true, false, false, 1⟩ init_state).state.result =
      some ⟨-1, -3, 1⟩ ∧
    (step O0 f_linear ⟨cfg0, true, false, false, 2⟩
        (step O0 f_linear ⟨cfg0, true, false, false, 1⟩
          init_state).state).state.result = some ⟨-1, -3, 2⟩ := by
  have h := C9_amended_determinism O0 f_linear cfg0 init_state 1 2 rfl rfl
  constructor
  · rw [h.1]
    norm_num [O0, problemOf, cfg0, f_linear]
  · rw [h.2.1]
    norm_num [O0, problemOf, cfg0, f_linear]

/-- C10 amended: on every interaction the module-level generator is freshly
constructed from the current seed and captured by that interaction's
objective, so the problem passed to an optimize call always carries the fresh
seeded source and each run's noise replays the stream from its start; with
positive noise the handle's stored source then sits k draws into the stream
after a run with k evaluations. A resume, however, invokes the handle with
only the expanded criteria: its evaluations use the source of the problem the
handle stored at optimize time — not a freshly constructed one — and hence
continue the original run's noise sequence rather than replaying it. -/
theorem C10_amended_rng (O : OptOracle) (f : ℚ → ℚ) (inp : Inputs)
    (st : SessionState) :
    (inp.run_btn = true ∨ (inp.auto_run = true ∧ st.last_cfg ≠ some inp.cfg) →
      (step O f inp st).trace.map Event.sourceRng =
        [some (default_rng inp.cfg.seed)] ∧
      (O.fail (argsOf inp.cfg) (problemOf f inp.cfg) = false →
        0 < inp.cfg.noise_std →
        ((step O f inp st).state.solver.bind Solver.stored).map Problem.rng =
          some ⟨inp.cfg.seed,
            (O.pts (argsOf inp.cfg) (problemOf f inp.cfg)).length⟩)) ∧
    (∀ (s : Solver) (p : Problem),
      inp.run_btn = false → (inp.auto_run = false ∨ st.last_cfg = some inp.cfg) →
      inp.resume_btn = true → st.solver = some s → s.stored = some p →
      (step O f inp st).trace.map Event.sourceRng = [some p.rng]) := by
  constructor
  · intro htrig
    rw [step_of_trigger O f inp st htrig]
    rcases hf : O.fail (argsOf inp.cfg) (problemOf f inp.cfg) with _ | _
    · rw [run_block_of_ok O inp (problemOf f inp.cfg) _ (new_solver inp.cfg) rfl hf]
      refine ⟨rfl, fun _ hpos => ?_⟩
      have hrng := evalRun_rng_of_pos (problemOf f inp.cfg).f
        (problemOf f inp.cfg).noise_std hpos
        (O.pts (new_solver inp.cfg).args (problemOf f inp.cfg))
        (problemOf f inp.cfg).rng
      simp only [optSuccessor, Option.bind_some, Option.map_some]
      rw [hrng]
      simp [problemOf, default_rng]
    · rw [run_block_of_fail O inp (problemOf f inp.cfg) _ (new_solver inp.cfg) rfl hf]
      exact ⟨rfl, fun hc => by simp [hf] at hc⟩
  · intro s p hrun hpri hres hs hp
    rw [step_of_resume O f inp st s hrun hpri hres hs]
    rcases hr : doResume O s (expandedStop inp.cfg.stop_option) with _ | s2 <;>
      simp [hr, Event.sourceRng, hp]

lemma stAfterN_solver :
    stAfterN.solver =
      some (optSuccessor O0 (new_solver inpRunN.cfg) (problemOf f_linear inpRunN.cfg)) := by
  simp only [stAfterN]
  rw [step_of_run O0 f_linear inpRunN init_state rfl,
    run_block_of_ok O0 inpRunN (problemOf f_linear inpRunN.cfg) _
      (new_solver inpRunN.cfg) rfl rfl]

lemma sN_eq :
    sN = optSuccessor O0 (new_solver inpRunN.cfg) (problemOf f_linear inpRunN.cfg) := by
  simp only [sN, stAfterN_solver, Option.getD_some]

lemma pN_rng : pN.rng = ⟨42, 1⟩ := by
  have hrng := evalRun_rng_of_pos (problemOf f_linear inpRunN.cfg).f
    (problemOf f_linear inpRunN.cfg).noise_std
    (show (0 : ℚ) < (problemOf f_linear inpRunN.cfg).noise_std by
      norm_num [problemOf, inpRunN, cfgN])
    (O0.pts (new_solver inpRunN.cfg).args (problemOf f_linear inpRunN.cfg))
    (problemOf f_linear inpRunN.cfg).rng
  simp only [pN, sN_eq, optSuccessor, Option.getD_some]
  rw [hrng]
  simp [problemOf, default_rng, O0, inpRunN, cfgN, cfg0]

/-- C10 counterexample: a concrete noisy Run (one evaluation, consuming one
draw) followed by a Resume. The source in effect for the resume's
evaluations is the stored, already-advanced generator state (seed 42,
counter 1), not a freshly constructed generator from the current seed
(seed 42, counter 0), and the first noise value it yields differs from the
first value of the seeded stream — so the resume continues the noise
sequence instead of replaying it. -/
theorem C10_counterexample :
    (step O0 f_linear inpResN stAfterN).trace.map Event.sourceRng =
      [some pN.rng] ∧
    pN.rng = ⟨42, 1⟩ ∧
    default_rng inpResN.cfg.seed = ⟨42, 0⟩ ∧
    (Rng.mk 42 1 : Rng) ≠ ⟨42, 0⟩ ∧
    gaussStream 42 1 ≠ gaussStream 42 0 := by
  refine ⟨?_, pN_rng, rfl, by decide, ?_⟩
  · rw [step_of_resume O0 f_linear inpResN stAfterN sN rfl (Or.inl rfl) rfl rfl]
    rcases hr : doResume O0 sN (expandedStop inpResN.cfg.stop_option) with _ | s2 <;>
      simp [hr, Event.sourceRng, show sN.stored = some pN from rfl]
  · norm_num [gaussStream]

/-- C10 amended witness: the concrete noisy Run passes a problem carrying the
fresh seeded source and leaves the stored source one draw in; the following
Resume evaluates with that stored source. -/
theorem C10_amended_rng_witness :
    (step O0 f_linear inpRunN init_state).trace.map Event.sourceRng =
      [some (default_rng 42)] ∧
    ((step O0 f_linear inpRunN init_state).state.solver.bind Solver.stored).map
      Problem.rng = some ⟨42, 1⟩ ∧
    (step O0 f_linear inpResN stAfterN).trace.map Event.sourceRng =
      [some pN.rng] := by
  have h1 := (C10_amended_rng O0 f_linear inpRunN init_state).1 (Or.inl rfl)
  have h2 := (C10_amended_rng O0 f_linear inpResN stAfterN).2 sN pN rfl (Or.inl rfl)
    rfl rfl rfl
  refine ⟨h1.1, ?_, h2⟩
  have h3 := h1.2 rfl
    (show (0 : ℚ) < inpRunN.cfg.noise_std by norm_num [inpRunN, cfgN])
  rw [h3]
  rfl

end PyDDSBBApp
